import Mathlib

/-!
Shallow embedding of the game-state engine of the Tetris/Three.js repository
(`script.js`).  The 3D rendering, DOM and particle layers are out of scope;
the definitions below translate the pure game-state parts of the
`TetrisGame` class: grid, collision, rotation with kick search, merge,
line clearing with scoring and leveling, the hold slot, the gravity
accumulator (`animate`) and the input handlers.  `Math.random()` piece
selection is modelled by an explicit oracle `seq : ℕ → PieceType` together
with a consumption index `seqIdx` carried in the state.
-/

namespace Tetris

/-- The seven piece kinds of the shape catalog `SHAPES`. -/
inductive PieceType
  | I | O | T | S | Z | J | L
deriving DecidableEq

/-- Relative cell offsets of each kind, from `SHAPES[...].coords`. -/
def shapeCoords : PieceType → List (ℤ × ℤ)
  | .I => [(-1,0), (0,0), (1,0), (2,0)]
  | .O => [(0,0), (1,0), (0,1), (1,1)]
  | .T => [(0,0), (1,0), (2,0), (1,1)]
  | .S => [(1,0), (2,0), (0,1), (1,1)]
  | .Z => [(0,0), (1,0), (1,1), (2,1)]
  | .J => [(0,0), (0,1), (1,1), (2,1)]
  | .L => [(2,0), (0,1), (1,1), (2,1)]

/-- Color tag of each kind, from `SHAPES[...].color`. -/
def shapeColor : PieceType → ℕ
  | .I => 0x8ab0c8
  | .O => 0xc8b87a
  | .T => 0x9c8fb5
  | .S => 0x7aad8a
  | .Z => 0xc07a7a
  | .J => 0x7a8fad
  | .L => 0xb89a70

/-- The scoring table `POINTS = [0, 100, 300, 500, 800]`. -/
def POINTS : List ℕ := [0, 100, 300, 500, 800]

/-- A stored piece definition without a position: the shape of the objects
produced by `getRandomPiece` and stored in `nextPiece` / `heldPiece`
(`{type, coords, color}`). -/
structure PieceDef where
  type : PieceType
  coords : List (ℤ × ℤ)
  color : ℕ
deriving DecidableEq

/-- An active piece: a definition together with the absolute anchor
`(x, y)` in grid coordinates (`this.currentPiece` after spawn). -/
structure Piece where
  type : PieceType
  coords : List (ℤ × ℤ)
  color : ℕ
  x : ℤ
  y : ℤ
deriving DecidableEq

/-- The 10×20 occupancy grid `this.grid`, addressed as `grid[x][y]`;
`0` is an empty cell, any other value is the color of the locked cell. -/
abbrev Grid := Fin 10 → Fin 20 → ℕ

/-- `createEmptyGrid`: every cell filled with `0`. -/
def emptyGrid : Grid := fun _ _ => 0

/-- Read `grid[x][y]` at integer coordinates; only in-bounds reads occur
in the source, out-of-bounds reads are mapped to the empty value. -/
def gridGet (g : Grid) (x y : ℤ) : ℕ :=
  if hx : 0 ≤ x ∧ x < 10 then
    if hy : 0 ≤ y ∧ y < 20 then
      g ⟨x.toNat, by omega⟩ ⟨y.toNat, by omega⟩
    else 0
  else 0

/-- Write `grid[x][y] = v` at integer coordinates. -/
def setCell (g : Grid) (x y : ℤ) (v : ℕ) : Grid :=
  fun i j => if ((i : ℤ) = x ∧ (j : ℤ) = y) then v else g i j

/-- `checkCollision(dx, dy, piece)`: true iff some cell of the piece,
shifted by `(dx, dy)`, leaves `[0,10)×[0,20)` or lands on an occupied
grid cell. -/
def checkCollision (g : Grid) (dx dy : ℤ) (p : Piece) : Bool :=
  p.coords.any fun c =>
    let newX := p.x + c.1 + dx
    let newY := p.y + c.2 + dy
    if newX < 0 ∨ 10 ≤ newX ∨ newY < 0 ∨ 20 ≤ newY then true
    else gridGet g newX newY != 0

/-- The full game state of `TetrisGame` restricted to the engine fields,
plus the random-piece oracle `seq` and its consumption index. -/
structure GameState where
  grid : Grid
  currentPiece : Piece
  nextPiece : PieceDef
  heldPiece : Option PieceDef
  canHold : Bool
  score : ℕ
  level : ℕ
  linesCleared : ℕ
  dropInterval : ℤ
  dropCounter : ℤ
  isPaused : Bool
  isGameOver : Bool
  seq : ℕ → PieceType
  seqIdx : ℕ

/-- The piece definition `getRandomPiece` builds for a given kind:
catalog coords (cloned) and catalog color. -/
def canonicalDef (t : PieceType) : PieceDef :=
  ⟨t, shapeCoords t, shapeColor t⟩

/-- Spawn anchor column: `floor(GRID_WIDTH/2) - 1 = 4`, decremented once
for the I piece. -/
def spawnAnchorX (t : PieceType) : ℤ :=
  if t = PieceType.I then 3 else 4

/-- Place a stored definition at the standard spawn anchor
(`x` as above, `y = GRID_HEIGHT - 2 = 18`). -/
def respawn (d : PieceDef) : Piece :=
  ⟨d.type, d.coords, d.color, spawnAnchorX d.type, 18⟩

/-- `spawnPiece`: promote the next piece to active at the spawn anchor,
refill the next queue from the oracle, re-arm `canHold`, and transition
to game over if the fresh piece immediately collides. -/
def spawnPiece (s : GameState) : GameState :=
  let cur := respawn s.nextPiece
  let s₁ := { s with currentPiece := cur,
                     nextPiece := canonicalDef (s.seq s.seqIdx),
                     seqIdx := s.seqIdx + 1,
                     canHold := true }
  if checkCollision s.grid 0 0 cur then { s₁ with isGameOver := true } else s₁

/-- Rows `y` in which every column is occupied (`checkLines` scan). -/
def isRowFull (g : Grid) (y : Fin 20) : Bool :=
  (List.finRange 10).all fun x => g x y != 0

/-- The list `linesToClear` of full row indices, bottom to top. -/
def linesToClear (g : Grid) : List (Fin 20) :=
  (List.finRange 20).filter fun y => isRowFull g y

/-- Copy row `y` of the old grid into row `w` of the new grid
(the inner `for x` loop of the compaction pass). -/
def writeRow (ng : Grid) (w : ℕ) (g : Grid) (y : Fin 20) : Grid :=
  fun x r => if r.val = w then g x y else ng x r

/-- The compaction loop of `checkLines`: walk rows bottom to top, copy
every row not in the full-row set to the next write position. -/
def compactLoop (g : Grid) : List (Fin 20) → Grid × ℕ → Grid × ℕ
  | [], acc => acc
  | y :: ys, acc =>
      if y ∈ linesToClear g then compactLoop g ys acc
      else compactLoop g ys (writeRow acc.1 acc.2 g y, acc.2 + 1)

/-- The compacted grid built by `checkLines` when at least one row is full. -/
def compactGrid (g : Grid) : Grid :=
  (compactLoop g (List.finRange 20) (emptyGrid, 0)).1

/-- The rows that survive compaction, in original bottom-to-top order. -/
def keptRows (g : Grid) : List (Fin 20) :=
  (List.finRange 20).filter fun y => !decide (y ∈ linesToClear g)

/-- `checkLines`: detect full rows; if any, compact the grid, add
`(POINTS[lines] || 0) * level` to the score, add the cleared count to the
line total, recompute the level, and on a level increase set the drop
interval to `max(minDropInterval, 1000 - (level-1) * levelDropStep)`. -/
def checkLines (s : GameState) : GameState :=
  let lines := (linesToClear s.grid).length
  if 0 < lines then
    let newGrid := compactGrid s.grid
    let score₁ := s.score + POINTS.getD lines 0 * s.level
    let lc₁ := s.linesCleared + lines
    let newLevel := lc₁ / 10 + 1
    if s.level < newLevel then
      { s with grid := newGrid, score := score₁, linesCleared := lc₁,
               level := newLevel,
               dropInterval := max 100 (1000 - ((newLevel : ℤ) - 1) * 75) }
    else
      { s with grid := newGrid, score := score₁, linesCleared := lc₁ }
  else s

/-- `mergePiece`: write every in-bounds cell of the active piece into the
grid, then run `checkLines` and `spawnPiece`. -/
def mergePiece (s : GameState) : GameState :=
  let p := s.currentPiece
  let g₁ := p.coords.foldl
    (fun g c =>
      let x := p.x + c.1
      let y := p.y + c.2
      if 0 ≤ y ∧ y < 20 ∧ 0 ≤ x ∧ x < 10 then setCell g x y p.color else g)
    s.grid
  spawnPiece (checkLines { s with grid := g₁ })

/-- The active piece with its offsets rotated by `(x,y) ↦ (-y,x)`
(the `newCoords` assignment of `rotatePiece`). -/
def rotatedShape (p : Piece) : Piece :=
  { p with coords := p.coords.map fun c => (-c.2, c.1) }

/-- The kick offsets tried by `rotatePiece`, in priority order. -/
def kicks : List ℤ := [0, -1, 1, -2, 2]

/-- The kick-search loop: return the first kick whose shifted placement
of the rotated piece does not collide. -/
def tryKicks (g : Grid) (p : Piece) : List ℤ → Option ℤ
  | [] => none
  | k :: ks => if checkCollision g k 0 p then tryKicks g p ks else some k

/-- `rotatePiece`: rotate the shape, search the kick list; on success the
anchor column gains the kick and the new shape is kept, otherwise the
original piece is restored unchanged. -/
def rotatePiece (g : Grid) (p : Piece) : Piece :=
  match tryKicks g (rotatedShape p) kicks with
  | some k => { rotatedShape p with x := p.x + k }
  | none => p

/-- `holdPiece`: no-op when `canHold` is false; otherwise clear the flag
and either swap with the held definition (re-validating the spawn) or
store the active piece's canonical definition and force a fresh spawn. -/
def holdPiece (s : GameState) : GameState :=
  if !s.canHold then s
  else
    let s₁ := { s with canHold := false }
    match s.heldPiece with
    | some held =>
        let cur := respawn held
        let s₂ := { s₁ with heldPiece := some (canonicalDef s.currentPiece.type),
                            currentPiece := cur }
        if checkCollision s.grid 0 0 cur then { s₂ with isGameOver := true } else s₂
    | none =>
        spawnPiece { s₁ with heldPiece := some (canonicalDef s.currentPiece.type) }

/-- `ArrowLeft`: move left when legal. -/
def moveLeft (s : GameState) : GameState :=
  if checkCollision s.grid (-1) 0 s.currentPiece then s
  else { s with currentPiece := { s.currentPiece with x := s.currentPiece.x - 1 } }

/-- `ArrowRight`: move right when legal. -/
def moveRight (s : GameState) : GameState :=
  if checkCollision s.grid 1 0 s.currentPiece then s
  else { s with currentPiece := { s.currentPiece with x := s.currentPiece.x + 1 } }

/-- `ArrowDown`: soft drop one row when legal, awarding 1 point. -/
def softDrop (s : GameState) : GameState :=
  if checkCollision s.grid 0 (-1) s.currentPiece then s
  else { s with currentPiece := { s.currentPiece with y := s.currentPiece.y - 1 },
                score := s.score + 1 }

/-- `ArrowUp`: rotate the active piece. -/
def rotateOp (s : GameState) : GameState :=
  { s with currentPiece := rotatePiece s.grid s.currentPiece }

/-- Number of rows the hard-drop `while` loop descends.  The source loop
terminates because every 4-cell piece collides with the floor after at
most 20 + 20 steps; the fuel bound 100 is never reached for such pieces. -/
def hardDropCount (g : Grid) : Piece → ℕ → ℕ
  | _, 0 => 0
  | p, n + 1 =>
      if checkCollision g 0 (-1) p then 0
      else hardDropCount g { p with y := p.y - 1 } n + 1

/-- Space key: descend while legal awarding 2 points per row, then lock
(`mergePiece`) and zero the gravity accumulator. -/
def hardDrop (s : GameState) : GameState :=
  let n := hardDropCount s.grid s.currentPiece 100
  let s₁ := { s with currentPiece := { s.currentPiece with y := s.currentPiece.y - (n : ℤ) },
                     score := s.score + 2 * n }
  { mergePiece s₁ with dropCounter := 0 }

/-- The `p` key: toggle the pause flag. -/
def togglePause (s : GameState) : GameState :=
  { s with isPaused := !s.isPaused }

/-- `resetGame`: reinitialize grid, score, level, lines, drop interval,
flags and hold slot (the drop counter is NOT in this list), then draw a
fresh next piece and spawn. -/
def resetGame (s : GameState) : GameState :=
  spawnPiece { s with grid := emptyGrid, score := 0, level := 1, linesCleared := 0,
                      dropInterval := 1000, isGameOver := false, isPaused := false,
                      heldPiece := none,
                      nextPiece := canonicalDef (s.seq s.seqIdx),
                      seqIdx := s.seqIdx + 1 }

/-- The gravity part of `animate`: accumulate the frame delta; past the
drop interval either descend one row or lock, then zero the counter. -/
def tick (d : ℤ) (s : GameState) : GameState :=
  if s.isPaused = false ∧ s.isGameOver = false then
    let s₁ := { s with dropCounter := s.dropCounter + d }
    if s₁.dropInterval < s₁.dropCounter then
      let s₂ :=
        if checkCollision s₁.grid 0 (-1) s₁.currentPiece then mergePiece s₁
        else { s₁ with currentPiece := { s₁.currentPiece with y := s₁.currentPiece.y - 1 } }
      { s₂ with dropCounter := 0 }
    else s₁
  else s

/-- The game state built by `init()`: constructor field values, one
oracle draw into the next queue, then the first spawn. -/
def initState (seq : ℕ → PieceType) : GameState :=
  spawnPiece
    { grid := emptyGrid
      currentPiece := respawn (canonicalDef (seq 0))
      nextPiece := canonicalDef (seq 0)
      heldPiece := none
      canHold := true
      score := 0
      level := 1
      linesCleared := 0
      dropInterval := 1000
      dropCounter := 0
      isPaused := false
      isGameOver := false
      seq := seq
      seqIdx := 1 }

/-- One interaction step: a frame tick or one of the key handlers, with
the legality gating of `handleInput`. -/
inductive Step : GameState → GameState → Prop
  | tickStep (d : ℤ) (s : GameState) : Step s (tick d s)
  | moveLeftStep (s : GameState)
      (h : s.isGameOver = false ∧ s.isPaused = false) : Step s (moveLeft s)
  | moveRightStep (s : GameState)
      (h : s.isGameOver = false ∧ s.isPaused = false) : Step s (moveRight s)
  | softDropStep (s : GameState)
      (h : s.isGameOver = false ∧ s.isPaused = false) : Step s (softDrop s)
  | rotateStep (s : GameState)
      (h : s.isGameOver = false ∧ s.isPaused = false) : Step s (rotateOp s)
  | hardDropStep (s : GameState)
      (h : s.isGameOver = false ∧ s.isPaused = false) : Step s (hardDrop s)
  | holdStep (s : GameState)
      (h : s.isGameOver = false ∧ s.isPaused = false) : Step s (holdPiece s)
  | togglePauseStep (s : GameState)
      (h : s.isGameOver = false) : Step s (togglePause s)
  | resetStep (s : GameState)
      (h : s.isGameOver = true) : Step s (resetGame s)

/-- States reachable from a fresh game under some oracle. -/
inductive Reachable (seq : ℕ → PieceType) : GameState → Prop
  | init : Reachable seq (initState seq)
  | step {s t : GameState} : Reachable seq s → Step s t → Reachable seq t

/-- The coupling invariant between drop interval, level and cleared-line
total maintained by the engine. -/
def DropInv (s : GameState) : Prop :=
  s.dropInterval = max 100 (1000 - ((s.level : ℤ) - 1) * 75) ∧
  s.level = s.linesCleared / 10 + 1

/-- Absolute footprint of a piece: anchor plus each relative offset. -/
def absCells (p : Piece) : List (ℤ × ℤ) :=
  p.coords.map fun c => (p.x + c.1, p.y + c.2)

/-- A state about to perform a first hold with an empty hold slot:
T piece active at the spawn anchor, I piece in the next queue. -/
def sHoldEmpty : GameState :=
  { grid := emptyGrid
    currentPiece := respawn (canonicalDef PieceType.T)
    nextPiece := canonicalDef PieceType.I
    heldPiece := none
    canHold := true
    score := 0
    level := 1
    linesCleared := 0
    dropInterval := 1000
    dropCounter := 0
    isPaused := false
    isGameOver := false
    seq := fun _ => PieceType.O
    seqIdx := 0 }

/-- A state holding an I piece whose active T piece has been rotated once
(its coords are the once-rotated T shape, not the catalog shape). -/
def sHeldSwap : GameState :=
  { grid := emptyGrid
    currentPiece :=
      { type := PieceType.T, coords := [(0,0), (0,1), (0,2), (-1,1)],
        color := shapeColor PieceType.T, x := 4, y := 10 }
    nextPiece := canonicalDef PieceType.O
    heldPiece := some (canonicalDef PieceType.I)
    canHold := true
    score := 0
    level := 1
    linesCleared := 0
    dropInterval := 1000
    dropCounter := 0
    isPaused := false
    isGameOver := false
    seq := fun _ => PieceType.O
    seqIdx := 0 }

/-- A grid with a single locked cell on the spawn anchor of the O piece. -/
def gSpawnBlocked : Grid :=
  fun x y => if x.val = 4 ∧ y.val = 18 then 5 else 0

/-- A state holding an O piece whose respawn cell is occupied. -/
def sHoldGO : GameState :=
  { grid := gSpawnBlocked
    currentPiece := { (respawn (canonicalDef PieceType.T)) with y := 5 }
    nextPiece := canonicalDef PieceType.O
    heldPiece := some (canonicalDef PieceType.O)
    canHold := true
    score := 0
    level := 1
    linesCleared := 0
    dropInterval := 1000
    dropCounter := 0
    isPaused := false
    isGameOver := false
    seq := fun _ => PieceType.O
    seqIdx := 0 }

/-- The O piece at anchor (4, 10). -/
def pO : Piece :=
  ⟨PieceType.O, shapeCoords PieceType.O, shapeColor PieceType.O, 4, 10⟩

/-- The T piece at anchor (4, 10). -/
def pT : Piece :=
  ⟨PieceType.T, shapeCoords PieceType.T, shapeColor PieceType.T, 4, 10⟩

/-- A state at level 3 whose bottom two rows are completely full. -/
def sTwoRows : GameState :=
  { grid := fun _ y => if y.val < 2 then 7 else 0
    currentPiece := respawn (canonicalDef PieceType.T)
    nextPiece := canonicalDef PieceType.O
    heldPiece := none
    canHold := true
    score := 0
    level := 3
    linesCleared := 25
    dropInterval := 850
    dropCounter := 0
    isPaused := false
    isGameOver := false
    seq := fun _ => PieceType.O
    seqIdx := 0 }

/-- A state about to be reset, with 600 ms accumulated on the drop counter. -/
def sC10 : GameState :=
  { grid := emptyGrid
    currentPiece := respawn (canonicalDef PieceType.T)
    nextPiece := canonicalDef PieceType.T
    heldPiece := none
    canHold := true
    score := 0
    level := 1
    linesCleared := 0
    dropInterval := 1000
    dropCounter := 600
    isPaused := false
    isGameOver := true
    seq := fun _ => PieceType.T
    seqIdx := 0 }

theorem holdPiece_of_not_canHold (s : GameState) (h : s.canHold = false) :
    holdPiece s = s := by
  simp [holdPiece, h]

theorem mem_linesToClear {g : Grid} {y : Fin 20} :
    y ∈ linesToClear g ↔ isRowFull g y = true := by
  simp [linesToClear, List.mem_filter, List.mem_finRange]

theorem keptRows_eq (g : Grid) :
    keptRows g = (List.finRange 20).filter fun y => !isRowFull g y := by
  unfold keptRows
  apply List.filter_congr
  intro y _
  cases h : isRowFull g y <;> simp [mem_linesToClear, h]

/-- C8: `checkCollision(dx, dy, p)` returns true exactly when one of the
piece's cells shifted by `(dx, dy)` leaves the board `[0,10)×[0,20)` or
lands on an occupied grid cell; it is a pure function of the grid and the
piece. -/
theorem checkCollision_spec (g : Grid) (dx dy : ℤ) (p : Piece) :
    checkCollision g dx dy p = true ↔
      ∃ c ∈ p.coords,
        (p.x + c.1 + dx < 0 ∨ 10 ≤ p.x + c.1 + dx ∨
         p.y + c.2 + dy < 0 ∨ 20 ≤ p.y + c.2 + dy) ∨
        gridGet g (p.x + c.1 + dx) (p.y + c.2 + dy) ≠ 0 := by
  simp only [checkCollision, List.any_eq_true]
  refine exists_congr fun c => and_congr_right fun _ => ?_
  by_cases h :
      p.x + c.1 + dx < 0 ∨ 10 ≤ p.x + c.1 + dx ∨
      p.y + c.2 + dy < 0 ∨ 20 ≤ p.y + c.2 + dy
  · simp [h]
  · simp [h, bne_iff_ne]

/-- C5: when `k` rows are full (1 ≤ k ≤ 4), `checkLines` adds exactly
`POINTS[k] * level` to the score, with the level read before any level
recomputation of the same tick. -/
theorem checkLines_score (s : GameState) (k : ℕ)
    (hk : (linesToClear s.grid).length = k) (h1 : 1 ≤ k) (h4 : k ≤ 4) :
    (checkLines s).score = s.score + POINTS.getD k 0 * s.level := by
  simp only [checkLines, hk]
  rw [if_pos (show 0 < k from h1)]
  split <;> rfl

/-- Witness for `checkLines_score`: clearing 2 rows at level 3 awards
exactly 900 points. -/
theorem checkLines_score_witness : (checkLines sTwoRows).score = 900 := by
  have h := checkLines_score sTwoRows 2 (by decide) (by decide) (by decide)
  simpa using h

/-- C2 (amended): a hold performed while a piece is already held stores the
active piece's kind and color with the catalog's canonical offsets,
regardless of the piece's current rotation. -/
theorem holdPiece_stores_canonical (s : GameState) (d : PieceDef)
    (h : s.canHold = true) (hd : s.heldPiece = some d) :
    (holdPiece s).heldPiece = some (canonicalDef s.currentPiece.type) := by
  simp only [holdPiece, h, Bool.not_true, Bool.false_eq_true, if_false, hd]
  split <;> rfl

/-- Witness for `holdPiece_stores_canonical` at the rotated-T state. -/
theorem holdPiece_stores_canonical_witness :
    (holdPiece sHeldSwap).heldPiece = some (canonicalDef PieceType.T) :=
  holdPiece_stores_canonical sHeldSwap (canonicalDef PieceType.I) rfl rfl

/-- C2 counterexample: after holding the once-rotated T piece (with an I
piece already held), the hold slot does not contain the active piece's
current-rotation offsets. -/
theorem holdPiece_rotation_counterexample :
    (holdPiece sHeldSwap).heldPiece ≠
      some ⟨sHeldSwap.currentPiece.type, sHeldSwap.currentPiece.coords,
            sHeldSwap.currentPiece.color⟩ := by
  decide

/-- C1 (amended): spawning re-arms the hold flag; a hold with the flag
cleared is a no-op; a swap-hold clears the flag so an immediately repeated
hold changes nothing; but a hold with an empty slot triggers a fresh spawn
which re-arms the flag, leaving the hold available again. -/
theorem hold_flag_semantics :
    (∀ s : GameState, (spawnPiece s).canHold = true) ∧
    (∀ s : GameState, s.canHold = false → holdPiece s = s) ∧
    (∀ (s : GameState) (d : PieceDef), s.canHold = true → s.heldPiece = some d →
      (holdPiece s).canHold = false ∧ holdPiece (holdPiece s) = holdPiece s) ∧
    (∀ s : GameState, s.canHold = true → s.heldPiece = none →
      (holdPiece s).canHold = true ∧
      (holdPiece s).heldPiece = some (canonicalDef s.currentPiece.type)) := by
  refine ⟨fun s => ?_, fun s h => ?_, fun s d h hd => ?_, fun s h hn => ?_⟩
  · simp only [spawnPiece]
    split <;> rfl
  · exact holdPiece_of_not_canHold s h
  · have hflag : (holdPiece s).canHold = false := by
      simp only [holdPiece, h, Bool.not_true, Bool.false_eq_true, if_false, hd]
      split <;> rfl
    exact ⟨hflag, holdPiece_of_not_canHold (holdPiece s) hflag⟩
  · constructor <;>
      simp only [holdPiece, h, Bool.not_true, Bool.false_eq_true, if_false, hn,
        spawnPiece] <;> split <;> rfl

/-- Witness for `hold_flag_semantics`: an empty-slot hold stores the T
definition but leaves the hold flag armed. -/
theorem hold_flag_semantics_witness :
    (holdPiece sHoldEmpty).canHold = true ∧
    (holdPiece sHoldEmpty).heldPiece = some (canonicalDef PieceType.T) :=
  hold_flag_semantics.2.2.2 sHoldEmpty rfl rfl

/-- C1 counterexample: starting from an empty hold slot, two consecutive
holds (with no lock in between) change both the hold slot and the active
piece, because the spawn inside the first hold re-armed the flag. -/
theorem hold_twice_counterexample :
    (holdPiece (holdPiece sHoldEmpty)).heldPiece ≠ (holdPiece sHoldEmpty).heldPiece ∧
    (holdPiece (holdPiece sHoldEmpty)).currentPiece ≠ (holdPiece sHoldEmpty).currentPiece := by
  constructor <;> decide

/-- C7: a hold never writes the grid, and whenever the piece swapped in
(or the forced fresh spawn) collides at the spawn anchor, the hold ends in
the GameOver state. -/
theorem holdPiece_spawn_collision (s : GameState) (h : s.canHold = true) :
    (holdPiece s).grid = s.grid ∧
    (∀ d : PieceDef, s.heldPiece = some d →
      checkCollision s.grid 0 0 (respawn d) = true →
      (holdPiece s).isGameOver = true) ∧
    (s.heldPiece = none →
      checkCollision s.grid 0 0 (respawn s.nextPiece) = true →
      (holdPiece s).isGameOver = true) := by
  refine ⟨?_, fun d hd hc => ?_, fun hn hc => ?_⟩
  · simp only [holdPiece]
    split
    · rfl
    · cases hh : s.heldPiece <;> simp only [spawnPiece] <;> split <;> rfl
  · simp only [holdPiece, h, Bool.not_true, Bool.false_eq_true, if_false, hd, hc,
      if_true]
  · simp only [holdPiece, h, Bool.not_true, Bool.false_eq_true, if_false, hn,
      spawnPiece, hc, if_true]

/-- Witness for `holdPiece_spawn_collision`: swapping the held O piece
onto a blocked spawn cell triggers GameOver and leaves the grid intact. -/
theorem holdPiece_spawn_collision_witness :
    (holdPiece sHoldGO).isGameOver = true ∧ (holdPiece sHoldGO).grid = sHoldGO.grid := by
  have h := holdPiece_spawn_collision sHoldGO rfl
  exact ⟨h.2.1 (canonicalDef PieceType.O) rfl (by decide), h.1⟩

/-- C9: rotating the O piece maps its offsets to
`[(0,0),(0,1),(-1,0),(-1,1)]`; when the unkicked placement is legal the
anchor is unchanged and the footprint is the original footprint shifted
one column to the left. -/
theorem rotate_O_shifts_left (g : Grid) (x y : ℤ) :
    (shapeCoords PieceType.O).map (fun c => (-c.2, c.1)) =
        [(0,0), (0,1), (-1,0), (-1,1)] ∧
    (checkCollision g 0 0
        (rotatedShape ⟨PieceType.O, shapeCoords PieceType.O, shapeColor PieceType.O, x, y⟩) = false →
      (rotatePiece g ⟨PieceType.O, shapeCoords PieceType.O, shapeColor PieceType.O, x, y⟩).x = x ∧
      (rotatePiece g ⟨PieceType.O, shapeCoords PieceType.O, shapeColor PieceType.O, x, y⟩).y = y ∧
      ∀ q : ℤ × ℤ,
        q ∈ absCells (rotatePiece g ⟨PieceType.O, shapeCoords PieceType.O, shapeColor PieceType.O, x, y⟩) ↔
        (q.1 + 1, q.2) ∈ absCells ⟨PieceType.O, shapeCoords PieceType.O, shapeColor PieceType.O, x, y⟩) := by
  refine ⟨by decide, fun h => ?_⟩
  have hrot : rotatePiece g ⟨PieceType.O, shapeCoords PieceType.O, shapeColor PieceType.O, x, y⟩ =
      { rotatedShape ⟨PieceType.O, shapeCoords PieceType.O, shapeColor PieceType.O, x, y⟩ with
        x := x + 0 } := by
    simp only [rotatePiece, kicks, tryKicks, h, Bool.false_eq_true, if_false]
  rw [hrot]
  refine ⟨by simp, rfl, fun q => ?_⟩
  simp only [absCells, rotatedShape, shapeCoords, List.map_cons, List.map_nil,
    List.mem_cons, List.not_mem_nil, or_false, Prod.ext_iff, Prod.fst, Prod.snd]
  constructor <;> intro hq <;> omega

/-- Witness for `rotate_O_shifts_left` on the empty grid. -/
theorem rotate_O_shifts_left_witness :
    (rotatePiece emptyGrid pO).x = 4 ∧ (rotatePiece emptyGrid pO).y = 10 ∧
    ((3, 10) ∈ absCells (rotatePiece emptyGrid pO) ↔ (4, 10) ∈ absCells pO) := by
  have h := (rotate_O_shifts_left emptyGrid 4 10).2 (by decide)
  exact ⟨h.1, h.2.1, h.2.2 (3, 10)⟩

/-- C3: rotation computes the new shape by `(x,y) ↦ (-y,x)` and tries the
kicks `[0, -1, 1, -2, 2]` in order: the row is never modified; if every
kick collides the piece is returned unchanged; the first non-colliding
kick is added to the anchor column with the new shape kept. -/
theorem rotatePiece_spec (g : Grid) (p : Piece) :
    (rotatePiece g p).y = p.y ∧
    ((∀ k ∈ kicks, checkCollision g k 0 (rotatedShape p) = true) →
      rotatePiece g p = p) ∧
    (∀ i : Fin 5,
      checkCollision g (kicks.getD i.val 0) 0 (rotatedShape p) = false →
      (∀ j : Fin 5, j < i →
        checkCollision g (kicks.getD j.val 0) 0 (rotatedShape p) = true) →
      rotatePiece g p =
        { rotatedShape p with x := p.x + kicks.getD i.val 0 }) := by
  refine ⟨?_, ?_, ?_⟩
  · unfold rotatePiece
    cases h : tryKicks g (rotatedShape p) kicks <;> simp [rotatedShape]
  · intro h
    have h0 := h 0 (by simp [kicks])
    have h1 := h (-1) (by simp [kicks])
    have h2 := h 1 (by simp [kicks])
    have h3 := h (-2) (by simp [kicks])
    have h4 := h 2 (by simp [kicks])
    simp [rotatePiece, kicks, tryKicks, h0, h1, h2, h3, h4]
  · intro i hi hj
    fin_cases i
    · simp only [Fin.isValue] at hi
      simp only [kicks, List.getD] at hi ⊢
      simp only [rotatePiece, kicks, tryKicks]
      simp_all
    · have e0 := hj ⟨0, by omega⟩ (by decide)
      simp only [kicks, List.getD] at hi e0 ⊢
      simp only [rotatePiece, kicks, tryKicks]
      simp_all
    · have e0 := hj ⟨0, by omega⟩ (by decide)
      have e1 := hj ⟨1, by omega⟩ (by decide)
      simp only [kicks, List.getD] at hi e0 e1 ⊢
      simp only [rotatePiece, kicks, tryKicks]
      simp_all
    · have e0 := hj ⟨0, by omega⟩ (by decide)
      have e1 := hj ⟨1, by omega⟩ (by decide)
      have e2 := hj ⟨2, by omega⟩ (by decide)
      simp only [kicks, List.getD] at hi e0 e1 e2 ⊢
      simp only [rotatePiece, kicks, tryKicks]
      simp_all
    · have e0 := hj ⟨0, by omega⟩ (by decide)
      have e1 := hj ⟨1, by omega⟩ (by decide)
      have e2 := hj ⟨2, by omega⟩ (by decide)
      have e3 := hj ⟨3, by omega⟩ (by decide)
      simp only [kicks, List.getD] at hi e0 e1 e2 e3 ⊢
      simp only [rotatePiece, kicks, tryKicks]
      simp_all

/-- Witness for `rotatePiece_spec`: on the empty grid the T piece rotates
in place with kick 0. -/
theorem rotatePiece_spec_witness :
    rotatePiece emptyGrid pT = { rotatedShape pT with x := pT.x + kicks.getD 0 0 } := by
  have h := (rotatePiece_spec emptyGrid pT).2.2 0 (by decide)
    (fun j hj => absurd hj (by simp))
  exact h

theorem compactLoop_spec (g : Grid) (ys : List (Fin 20)) (ng : Grid) (w : ℕ) :
    (compactLoop g ys (ng, w)).2 =
        w + (ys.filter fun y => !decide (y ∈ linesToClear g)).length ∧
    ∀ (x : Fin 10) (r : Fin 20),
      (compactLoop g ys (ng, w)).1 x r =
        if w ≤ r.val ∧
            r.val < w + (ys.filter fun y => !decide (y ∈ linesToClear g)).length
        then g x ((ys.filter fun y => !decide (y ∈ linesToClear g)).getD (r.val - w) 0)
        else ng x r := by
  induction ys generalizing ng w with
  | nil =>
    refine ⟨by simp [compactLoop], fun x r => ?_⟩
    simp only [compactLoop, List.filter_nil, List.length_nil]
    rw [if_neg (by omega)]
  | cons y ys ih =>
    by_cases hy : y ∈ linesToClear g
    · have hdec : (!decide (y ∈ linesToClear g)) = false := by simp [hy]
      simp only [compactLoop, if_pos hy, List.filter_cons, hdec, Bool.false_eq_true,
        if_false]
      exact ih ng w
    · have hdec : (!decide (y ∈ linesToClear g)) = true := by simp [hy]
      simp only [compactLoop, if_neg hy, List.filter_cons, hdec, if_true,
        List.length_cons]
      obtain ⟨ih1, ih2⟩ := ih (writeRow ng w g y) (w + 1)
      refine ⟨by rw [ih1]; omega, fun x r => ?_⟩
      rw [ih2 x r]
      by_cases h1 : r.val = w
      · rw [if_neg (by omega), if_pos (by omega)]
        have hz : r.val - w = 0 := by omega
        simp [writeRow, h1, hz, List.getD_cons_zero]
      · by_cases h2 : w + 1 ≤ r.val ∧
            r.val < (w + 1) + (ys.filter fun y => !decide (y ∈ linesToClear g)).length
        · rw [if_pos h2, if_pos (by omega)]
          have hs : r.val - w = (r.val - (w + 1)) + 1 := by omega
          rw [hs, List.getD_cons_succ]
        · rw [if_neg h2, if_neg (by omega)]
          simp [writeRow, h1]

theorem compactGrid_spec (g : Grid) (x : Fin 10) (r : Fin 20) :
    compactGrid g x r =
      if r.val < (keptRows g).length
      then g x ((keptRows g).getD r.val 0)
      else 0 := by
  have h := (compactLoop_spec g (List.finRange 20) emptyGrid 0).2 x r
  unfold compactGrid keptRows
  rw [h]
  simp [emptyGrid]

theorem checkLines_grid (s : GameState)
    (h : 0 < (linesToClear s.grid).length) :
    (checkLines s).grid = compactGrid s.grid := by
  simp only [checkLines]
  rw [if_pos h]
  split <;> rfl

/-- C4: when some rows are full, `checkLines` replaces the grid by the
compaction that keeps exactly the non-full rows in their original
bottom-to-top order at consecutive indices from row 0, leaving the top
`k` rows empty (`keptRows` is the strictly increasing enumeration of the
non-full rows, and the cleared plus kept rows partition all 20 rows). -/
theorem checkLines_compaction (s : GameState)
    (h : 0 < (linesToClear s.grid).length) :
    (keptRows s.grid).length + (linesToClear s.grid).length = 20 ∧
    (∀ y : Fin 20, y ∈ keptRows s.grid ↔ isRowFull s.grid y = false) ∧
    List.Pairwise (· < ·) (keptRows s.grid) ∧
    (∀ (x : Fin 10) (r : Fin 20), r.val < (keptRows s.grid).length →
      (checkLines s).grid x r = s.grid x ((keptRows s.grid).getD r.val 0)) ∧
    (∀ (x : Fin 10) (r : Fin 20), (keptRows s.grid).length ≤ r.val →
      (checkLines s).grid x r = 0) := by
  refine ⟨?_, fun y => ?_, ?_, fun x r hr => ?_, fun x r hr => ?_⟩
  · have hpart := (List.finRange 20).length_eq_length_filter_add
      fun y => isRowFull s.grid y
    rw [keptRows_eq]
    simp only [linesToClear]
    simp only [List.length_finRange] at hpart
    omega
  · rw [keptRows_eq]
    simp [List.mem_filter, List.mem_finRange]
  · rw [keptRows_eq]
    exact (List.pairwise_lt_finRange 20).filter _
  · rw [checkLines_grid s h, compactGrid_spec, if_pos hr]
  · rw [checkLines_grid s h, compactGrid_spec, if_neg (by omega)]

/-- Witness for `checkLines_compaction`: in the level-3 state with the
bottom two rows full, row 2 of the old grid (the first non-full row)
lands in row 0, and the top rows are empty. -/
theorem checkLines_compaction_witness :
    (checkLines sTwoRows).grid 0 0 = sTwoRows.grid 0 ((keptRows sTwoRows.grid).getD 0 0) ∧
    (checkLines sTwoRows).grid 0 19 = 0 := by
  have h := checkLines_compaction sTwoRows (by decide)
  exact ⟨h.2.2.2.1 0 0 (by decide), h.2.2.2.2 0 19 (by decide)⟩

theorem spawn_empty_ok (t : PieceType) :
    checkCollision emptyGrid 0 0 (respawn (canonicalDef t)) = false := by
  cases t <;> decide

theorem spawn_empty_down_ok (t : PieceType) :
    checkCollision emptyGrid 0 (-1) (respawn (canonicalDef t)) = false := by
  cases t <;> decide

theorem resetGame_eq (s : GameState) :
    resetGame s =
      { grid := emptyGrid
        currentPiece := respawn (canonicalDef (s.seq s.seqIdx))
        nextPiece := canonicalDef (s.seq (s.seqIdx + 1))
        heldPiece := none
        canHold := true
        score := 0
        level := 1
        linesCleared := 0
        dropInterval := 1000
        dropCounter := s.dropCounter
        isPaused := false
        isGameOver := false
        seq := s.seq
        seqIdx := s.seqIdx + 1 + 1 } := by
  simp only [resetGame, spawnPiece, spawn_empty_ok, Bool.false_eq_true, if_false]

/-- C10: `resetGame` reinitializes grid, score, level, lines, drop
interval, hold slot and flags but leaves the gravity accumulator
untouched, so a tick of less than one full drop interval can already
trigger the first automatic descent of the new game. -/
theorem resetGame_keeps_dropCounter (s : GameState) :
    (resetGame s).dropCounter = s.dropCounter ∧
    ∀ d : ℤ, 0 < d → d < (resetGame s).dropInterval →
      (resetGame s).dropInterval < s.dropCounter + d →
      (tick d (resetGame s)).currentPiece.y = (resetGame s).currentPiece.y - 1 := by
  rw [resetGame_eq]
  refine ⟨rfl, fun d hd hlt hgt => ?_⟩
  have hgt2 : (1000 : ℤ) < s.dropCounter + d := hgt
  simp [tick, hgt2, spawn_empty_down_ok]

/-- Witness for `resetGame_keeps_dropCounter`: resetting with 600 ms
accumulated lets a 500 ms frame (half an interval) already move the fresh
piece down from row 18 to row 17. -/
theorem resetGame_keeps_dropCounter_witness :
    (resetGame sC10).dropCounter = 600 ∧
    (tick 500 (resetGame sC10)).currentPiece.y = 17 := by
  have h := resetGame_keeps_dropCounter sC10
  refine ⟨h.1, ?_⟩
  have h2 := h.2 500 (by decide) (by decide) (by decide)
  rw [h2]
  decide

theorem spawnPiece_fields (s : GameState) :
    (spawnPiece s).level = s.level ∧ (spawnPiece s).linesCleared = s.linesCleared ∧
    (spawnPiece s).dropInterval = s.dropInterval := by
  simp only [spawnPiece]
  split <;> exact ⟨rfl, rfl, rfl⟩

theorem DropInv_spawnPiece {s : GameState} (h : DropInv s) : DropInv (spawnPiece s) := by
  obtain ⟨f1, f2, f3⟩ := spawnPiece_fields s
  unfold DropInv at h ⊢
  rw [f1, f2, f3]
  exact h

theorem DropInv_checkLines {s : GameState} (h : DropInv s) : DropInv (checkLines s) := by
  obtain ⟨h1, h2⟩ := h
  simp only [checkLines]
  by_cases h0 : 0 < (linesToClear s.grid).length
  · rw [if_pos h0]
    by_cases hlev :
        s.level < (s.linesCleared + (linesToClear s.grid).length) / 10 + 1
    · rw [if_pos hlev]
      exact ⟨rfl, rfl⟩
    · rw [if_neg hlev]
      refine ⟨h1, ?_⟩
      show s.level = (s.linesCleared + (linesToClear s.grid).length) / 10 + 1
      have hle : s.linesCleared / 10 ≤
          (s.linesCleared + (linesToClear s.grid).length) / 10 :=
        Nat.div_le_div_right (Nat.le_add_right _ _)
      omega
  · rw [if_neg h0]
    exact ⟨h1, h2⟩

theorem DropInv_mergePiece {s : GameState} (h : DropInv s) : DropInv (mergePiece s) := by
  unfold mergePiece
  exact DropInv_spawnPiece (DropInv_checkLines ⟨h.1, h.2⟩)

theorem DropInv_tick (d : ℤ) {s : GameState} (h : DropInv s) : DropInv (tick d s) := by
  simp only [tick]
  by_cases hc1 : s.isPaused = false ∧ s.isGameOver = false
  · rw [if_pos hc1]
    by_cases hc2 : s.dropInterval < s.dropCounter + d
    · rw [if_pos hc2]
      by_cases hc3 : checkCollision s.grid 0 (-1) s.currentPiece = true
      · rw [if_pos hc3]
        have hm : DropInv (mergePiece { s with dropCounter := s.dropCounter + d }) :=
          DropInv_mergePiece ⟨h.1, h.2⟩
        exact ⟨hm.1, hm.2⟩
      · rw [if_neg hc3]
        exact ⟨h.1, h.2⟩
    · rw [if_neg hc2]
      exact ⟨h.1, h.2⟩
  · rw [if_neg hc1]
    exact h

theorem DropInv_moveLeft {s : GameState} (h : DropInv s) : DropInv (moveLeft s) := by
  unfold moveLeft
  split
  · exact h
  · exact ⟨h.1, h.2⟩

theorem DropInv_moveRight {s : GameState} (h : DropInv s) : DropInv (moveRight s) := by
  unfold moveRight
  split
  · exact h
  · exact ⟨h.1, h.2⟩

theorem DropInv_softDrop {s : GameState} (h : DropInv s) : DropInv (softDrop s) := by
  unfold softDrop
  split
  · exact h
  · exact ⟨h.1, h.2⟩

theorem DropInv_rotateOp {s : GameState} (h : DropInv s) : DropInv (rotateOp s) :=
  ⟨h.1, h.2⟩

theorem DropInv_togglePause {s : GameState} (h : DropInv s) : DropInv (togglePause s) :=
  ⟨h.1, h.2⟩

theorem DropInv_mergePiece_dc {s : GameState} (h : DropInv s) (c : ℤ) :
    DropInv { mergePiece s with dropCounter := c } := by
  have hm := DropInv_mergePiece h
  exact ⟨hm.1, hm.2⟩

theorem DropInv_holdPiece {s : GameState} (h : DropInv s) : DropInv (holdPiece s) := by
  simp only [holdPiece]
  split
  · exact h
  · split
    · split
      · exact ⟨h.1, h.2⟩
      · exact ⟨h.1, h.2⟩
    · exact DropInv_spawnPiece ⟨h.1, h.2⟩

theorem DropInv_hardDrop {s : GameState} (h : DropInv s) : DropInv (hardDrop s) := by
  simp only [hardDrop]
  apply DropInv_mergePiece_dc
  exact ⟨h.1, h.2⟩

theorem DropInv_resetGame (s : GameState) : DropInv (resetGame s) := by
  rw [resetGame_eq]
  constructor
  · show (1000 : ℤ) = max 100 (1000 - (((1 : ℕ) : ℤ) - 1) * 75)
    decide
  · show (1 : ℕ) = 0 / 10 + 1
    decide

theorem DropInv_initState (seq : ℕ → PieceType) : DropInv (initState seq) := by
  apply DropInv_spawnPiece
  constructor
  · show (1000 : ℤ) = max 100 (1000 - (((1 : ℕ) : ℤ) - 1) * 75)
    decide
  · show (1 : ℕ) = 0 / 10 + 1
    decide

theorem Reachable_DropInv {seq : ℕ → PieceType} {s : GameState}
    (h : Reachable seq s) : DropInv s := by
  induction h with
  | init => exact DropInv_initState seq
  | step hr hs ih =>
    cases hs with
    | tickStep d s => exact DropInv_tick d ih
    | moveLeftStep s h => exact DropInv_moveLeft ih
    | moveRightStep s h => exact DropInv_moveRight ih
    | softDropStep s h => exact DropInv_softDrop ih
    | rotateStep s h => exact DropInv_rotateOp ih
    | hardDropStep s h => exact DropInv_hardDrop ih
    | holdStep s h => exact DropInv_holdPiece ih
    | togglePauseStep s h => exact DropInv_togglePause ih
    | resetStep s h => exact DropInv_resetGame _

theorem checkLines_interval_eq_of_level_eq (s : GameState)
    (h : (checkLines s).level = s.level) :
    (checkLines s).dropInterval = s.dropInterval := by
  unfold checkLines at h ⊢
  by_cases h0 : 0 < (linesToClear s.grid).length
  · rw [if_pos h0] at h ⊢
    by_cases hl :
        s.level < (s.linesCleared + (linesToClear s.grid).length) / 10 + 1
    · rw [if_pos hl] at h ⊢
      have h2 : (s.linesCleared + (linesToClear s.grid).length) / 10 + 1 = s.level := h
      omega
    · rw [if_neg hl]
  · rw [if_neg h0]

theorem checkLines_interval_formula (s : GameState)
    (h : s.level < (checkLines s).level) :
    (checkLines s).dropInterval =
      max 100 (1000 - (((checkLines s).level : ℤ) - 1) * 75) := by
  unfold checkLines at h ⊢
  by_cases h0 : 0 < (linesToClear s.grid).length
  · rw [if_pos h0] at h ⊢
    by_cases hl :
        s.level < (s.linesCleared + (linesToClear s.grid).length) / 10 + 1
    · rw [if_pos hl] at h ⊢
    · rw [if_neg hl] at h ⊢
      exact absurd (show s.level < s.level from h) (lt_irrefl _)
  · rw [if_neg h0] at h ⊢
    exact absurd (show s.level < s.level from h) (lt_irrefl _)

theorem mergePiece_interval_of_level_eq (s : GameState)
    (h : (mergePiece s).level = s.level) :
    (mergePiece s).dropInterval = s.dropInterval := by
  unfold mergePiece at h ⊢
  rw [(spawnPiece_fields _).2.2]
  rw [(spawnPiece_fields _).1] at h
  exact checkLines_interval_eq_of_level_eq _ h

/-- C6: every reachable state satisfies the interval/level/lines coupling
`DropInv`; under that coupling the drop interval is antitone in the total
of cleared lines and floored at 100 ms; a level increase during
`checkLines` sets the interval to `max(100, 1000 - (level-1)*75)` and no
other update path of a play sequence changes the interval. -/
theorem dropInterval_law :
    (∀ (seq : ℕ → PieceType) (s : GameState), Reachable seq s → DropInv s) ∧
    (∀ s t : GameState, DropInv s → DropInv t →
      s.linesCleared ≤ t.linesCleared → t.dropInterval ≤ s.dropInterval) ∧
    (∀ s : GameState, DropInv s → 100 ≤ s.dropInterval) ∧
    (∀ s : GameState, (checkLines s).level = s.level →
      (checkLines s).dropInterval = s.dropInterval) ∧
    (∀ s : GameState, s.level < (checkLines s).level →
      (checkLines s).dropInterval =
        max 100 (1000 - (((checkLines s).level : ℤ) - 1) * 75)) ∧
    (∀ s : GameState,
      (moveLeft s).dropInterval = s.dropInterval ∧
      (moveRight s).dropInterval = s.dropInterval ∧
      (softDrop s).dropInterval = s.dropInterval ∧
      (rotateOp s).dropInterval = s.dropInterval ∧
      (holdPiece s).dropInterval = s.dropInterval ∧
      (togglePause s).dropInterval = s.dropInterval) ∧
    (∀ (d : ℤ) (s : GameState), (tick d s).level = s.level →
      (tick d s).dropInterval = s.dropInterval) ∧
    (∀ s : GameState, (hardDrop s).level = s.level →
      (hardDrop s).dropInterval = s.dropInterval) := by
  refine ⟨fun seq s h => Reachable_DropInv h, ?_, ?_,
    fun s => checkLines_interval_eq_of_level_eq s,
    fun s => checkLines_interval_formula s, ?_, ?_, ?_⟩
  · intro s t hs ht hle
    obtain ⟨hs1, hs2⟩ := hs
    obtain ⟨ht1, ht2⟩ := ht
    have hlev : s.level ≤ t.level := by
      have hdiv : s.linesCleared / 10 ≤ t.linesCleared / 10 :=
        Nat.div_le_div_right hle
      omega
    have hlz : (s.level : ℤ) ≤ (t.level : ℤ) := by exact_mod_cast hlev
    rw [hs1, ht1]
    apply max_le_max le_rfl
    linarith
  · intro s hs
    rw [hs.1]
    exact le_max_left _ _
  · intro s
    refine ⟨?_, ?_, ?_, rfl, ?_, rfl⟩
    · unfold moveLeft
      split <;> rfl
    · unfold moveRight
      split <;> rfl
    · unfold softDrop
      split <;> rfl
    · simp only [holdPiece]
      split
      · rfl
      · split
        · split <;> rfl
        · rw [(spawnPiece_fields _).2.2]
  · intro d s hlev
    simp only [tick] at hlev ⊢
    by_cases hc1 : s.isPaused = false ∧ s.isGameOver = false
    · rw [if_pos hc1] at hlev ⊢
      by_cases hc2 : s.dropInterval < s.dropCounter + d
      · rw [if_pos hc2] at hlev ⊢
        by_cases hc3 : checkCollision s.grid 0 (-1) s.currentPiece = true
        · rw [if_pos hc3] at hlev ⊢
          have h2 : (mergePiece { s with dropCounter := s.dropCounter + d }).level
              = s.level := hlev
          exact mergePiece_interval_of_level_eq _ h2
        · rw [if_neg hc3]
      · rw [if_neg hc2]
    · rw [if_neg hc1]
  · intro s hlev
    simp only [hardDrop] at hlev ⊢
    exact mergePiece_interval_of_level_eq _ hlev

/-- Witness for `dropInterval_law`: the initial state of a constant-T
oracle satisfies the interval/level/lines coupling. -/
theorem dropInterval_law_witness :
    (initState (fun _ => PieceType.T)).dropInterval =
      max 100 (1000 - (((initState (fun _ => PieceType.T)).level : ℤ) - 1) * 75) ∧
    (initState (fun _ => PieceType.T)).level =
      (initState (fun _ => PieceType.T)).linesCleared / 10 + 1 :=
  dropInterval_law.1 _ _ Reachable.init

end Tetris
